import Mathlib

/-!
Shallow embedding of the personal-finance-manager server handlers.

The relational store (db/schema.ts) is modelled as lists of rows; each
handler from src/server/src/handlers (and the implemented handlers in the
unnamed source parts) becomes a pure Lean function over that store.  SQL
`date` values are calendar dates; comparing them chronologically coincides
with comparing the ISO `YYYY-MM-DD` strings the handlers produce, which the
numeric key below captures.  Monetary amounts are integer cents; the zod
input schemas (`z.number().positive()`) only admit positive amounts, so the
stored amount is a `Nat`.  Timestamps (`created_at`/`updated_at`) are opaque
`Nat` instants supplied as a `now` parameter where a handler calls
`new Date()`.
-/

namespace Finance

/-- Transaction type enum from db/schema.ts: `income` | `expense`. -/
inductive TxType where
  | income
  | expense
deriving DecidableEq, Repr

/-- Budget period enum from db/schema.ts: `weekly` | `monthly` | `yearly`. -/
inductive Period where
  | weekly
  | monthly
  | yearly
deriving DecidableEq, Repr

/-- Calendar date as stored in the `date` columns (`YYYY-MM-DD`). -/
structure Date where
  y : Nat
  m : Nat
  d : Nat
deriving DecidableEq, Repr

/-- Numeric key whose order is the chronological order of dates; it agrees
with lexicographic comparison of the ISO date strings the handlers build
(`toISOString().split(T)[0]`) and with SQL `date` comparison. -/
def Date.key (a : Date) : Nat := a.y * 10000 + a.m * 100 + a.d

/-- SQL `lte`/`gte` on `date` columns. -/
def Date.le (a b : Date) : Bool := decide (a.key ≤ b.key)

/-- Gregorian leap-year rule (what JavaScript `Date` implements). -/
def isLeap (y : Nat) : Bool := (y % 4 == 0 && y % 100 != 0) || y % 400 == 0

/-- Length of month `m` (1..12) of year `y` in the proleptic Gregorian
calendar used by JavaScript `Date`. -/
def daysInMonth (y m : Nat) : Nat :=
  if m = 2 then (if isLeap y then 29 else 28)
  else if m = 4 ∨ m = 6 ∨ m = 9 ∨ m = 11 then 30
  else 31

/-- Day-of-month normalisation performed by the JavaScript `Date` setters:
an out-of-range day number carries its excess into the following month
(overflow, not clamping).  The fuel bounds the carries; the handlers only
ever produce day numbers at most 38, for which one carry suffices. -/
def normDays : Nat → Nat → Nat → Nat → Date
  | 0, y, m, d => ⟨y, m, d⟩
  | fuel+1, y, m, d =>
    if d ≤ daysInMonth y m then ⟨y, m, d⟩
    else if m = 12 then normDays fuel (y+1) 1 (d - daysInMonth y m)
    else normDays fuel y (m+1) (d - daysInMonth y m)

/-- `date.setDate(date.getDate() + 7)` (the `weekly` case of getBudgetStatus). -/
def addDays7 (a : Date) : Date := normDays 4 a.y a.m (a.d + 7)

/-- `date.setMonth(date.getMonth() + 1)` (the `monthly` case of getBudgetStatus). -/
def addMonthJS (a : Date) : Date :=
  if a.m = 12 then normDays 4 (a.y + 1) 1 a.d else normDays 4 a.y (a.m + 1) a.d

/-- `date.setFullYear(date.getFullYear() + 1)` (the `yearly` case of getBudgetStatus). -/
def addYearJS (a : Date) : Date := normDays 4 (a.y + 1) a.m a.d

/-- Row of the `categories` table. -/
structure Category where
  id : Nat
  name : String
  color : String
  icon : Option String
  created_at : Nat
deriving DecidableEq, Repr

/-- Row of the `transactions` table (`category_id` nullable). -/
structure Transaction where
  id : Nat
  amount : Nat
  description : String
  type : TxType
  category_id : Option Nat
  date : Date
  created_at : Nat
  updated_at : Nat
deriving DecidableEq, Repr

/-- Row of the `budgets` table (`category_id` not nullable, `end_date` nullable). -/
structure Budget where
  id : Nat
  category_id : Nat
  amount : Nat
  period : Period
  start_date : Date
  end_date : Option Date
  created_at : Nat
  updated_at : Nat
deriving DecidableEq, Repr

/-- The relational store: one list of rows per table, in the enumeration
order the database returns them. -/
structure Store where
  categories : List Category
  transactions : List Transaction
  budgets : List Budget
deriving DecidableEq, Repr

/-- Fresh primary key for an insert, modelling the `serial` sequence. -/
def freshId (ids : List Nat) : Nat := ids.foldr max 0 + 1

/-- Sum of the `amount` column over a list of rows (SQL `SUM(amount)`,
with `COALESCE(..., 0)` / `parseInt(... or 0)` giving 0 on no rows). -/
def sumAmounts (l : List Transaction) : Nat := (l.map (·.amount)).sum

/-! ## getTransactions (src/unnamed/part_001) -/

/-- `TransactionFilter` from schema.ts: every field optional. -/
structure TransactionFilter where
  type : Option TxType
  category_id : Option Nat
  start_date : Option Date
  end_date : Option Date
deriving DecidableEq, Repr

/-- Conjunction of the conditions getTransactions pushes for the supplied
filter fields: `eq(type, ...)`, `eq(category_id, ...)` (SQL equality, so a
NULL `category_id` never matches), `gte(date, ...)`, `lte(date, ...)`. -/
def matchesCond (f : TransactionFilter) (t : Transaction) : Bool :=
  (match f.type with | none => true | some ty => t.type == ty) &&
  (match f.category_id with | none => true | some cid => t.category_id == some cid) &&
  (match f.start_date with | none => true | some sd => Date.le sd t.date) &&
  (match f.end_date with | none => true | some ed => Date.le t.date ed)

/-- getTransactions from src/unnamed/part_001: with no filter (or no
conditions) it selects every row, otherwise the rows satisfying the `and`
of the pushed conditions. -/
def getTransactions (filter : Option TransactionFilter) (s : Store) : List Transaction :=
  match filter with
  | none => s.transactions
  | some f => s.transactions.filter (matchesCond f)

/-! ## getFinancialReport (src/server/src/handlers/get_financial_report.ts) -/

/-- `DateRange` from schema.ts: both bounds optional. -/
structure DateRange where
  start_date : Option Date
  end_date : Option Date
deriving DecidableEq, Repr

/-- One entry of the expense-by-category breakdown. -/
structure CategoryExpense where
  category_id : Option Nat
  category_name : Option String
  total_amount : Nat
deriving DecidableEq, Repr

/-- `FinancialReport` from schema.ts. -/
structure FinancialReport where
  total_income : Nat
  total_expenses : Nat
  net_income : Int
  expense_by_category : List CategoryExpense
  period : DateRange
deriving DecidableEq, Repr

/-- The date conditions getFinancialReport pushes for the supplied bounds
(`gte` / `lte`, both inclusive; an absent bound pushes no condition). -/
def inRange (r : DateRange) (t : Transaction) : Bool :=
  (match r.start_date with | none => true | some sd => Date.le sd t.date) &&
  (match r.end_date with | none => true | some ed => Date.le t.date ed)

/-- Distinct keys of a list in order of first occurrence: the grouping keys
the `GROUP BY category_id, name` query yields, in the row enumeration order
of the store (the query has no ORDER BY). -/
def firstKeys : List (Option Nat) → List (Option Nat) → List (Option Nat)
  | _, [] => []
  | seen, k :: rest =>
      if k ∈ seen then firstKeys seen rest else k :: firstKeys (k :: seen) rest

/-- Category name produced by the breakdown's left join: the joined
category's name, or null (`result.category_name or null`) when
`category_id` is null or references no category. -/
def lookupName (cats : List Category) (k : Option Nat) : Option String :=
  match k with
  | none => none
  | some cid => (cats.find? (fun c => c.id == cid)).map (·.name)

/-- The expense-by-category query of getFinancialReport: expense rows in
range, grouped by `category_id` (primary-key uniqueness of categories makes
grouping by `(category_id, name)` the same), each group summing `amount`. -/
def expenseBreakdown (r : DateRange) (s : Store) : List CategoryExpense :=
  let matching := s.transactions.filter (fun t => t.type == TxType.expense && inRange r t)
  (firstKeys [] (matching.map (·.category_id))).map (fun k =>
    { category_id := k
      category_name := lookupName s.categories k
      total_amount := sumAmounts (matching.filter (fun t => t.category_id == k)) })

/-- getFinancialReport from src/server/src/handlers/get_financial_report.ts. -/
def getFinancialReport (dateRange : DateRange) (s : Store) : FinancialReport :=
  let totalIncome :=
    sumAmounts (s.transactions.filter (fun t => t.type == TxType.income && inRange dateRange t))
  let totalExpenses :=
    sumAmounts (s.transactions.filter (fun t => t.type == TxType.expense && inRange dateRange t))
  { total_income := totalIncome
    total_expenses := totalExpenses
    net_income := (totalIncome : Int) - (totalExpenses : Int)
    expense_by_category := expenseBreakdown dateRange s
    period := dateRange }

/-! ## getBudgetStatus (src/unnamed/part_002) -/

/-- `BudgetStatus` from schema.ts; the handler always fills `end_date` with
the computed effective end date, so it is a plain `Date` here. -/
structure BudgetStatus where
  id : Nat
  category_id : Nat
  category_name : String
  budget_amount : Nat
  spent_amount : Nat
  remaining_amount : Int
  percentage_used : Nat
  period : Period
  start_date : Date
  end_date : Date
  is_over_budget : Bool
deriving DecidableEq, Repr

/-- `Math.round((spent / amount) * 100)` for nonnegative integer cents and a
positive amount: round-half-up of the exact rational `100 * spent / amount`. -/
def roundPct (spent amount : Nat) : Nat := (200 * spent + amount) / (2 * amount)

/-- Effective end date: the budget's own `end_date` when set, otherwise the
period applied to `start_date` by the JavaScript `Date` setters. -/
def effectiveEnd (b : Budget) : Date :=
  match b.end_date with
  | some e => e
  | none =>
    match b.period with
    | Period.weekly => addDays7 b.start_date
    | Period.monthly => addMonthJS b.start_date
    | Period.yearly => addYearJS b.start_date

/-- The spent-amount query of getBudgetStatus: sum of `amount` over
transactions with the budget's category, type `expense`, and date inside
the inclusive window. -/
def spentAmount (s : Store) (cid : Nat) (startD endD : Date) : Nat :=
  sumAmounts (s.transactions.filter (fun t =>
    t.category_id == some cid && t.type == TxType.expense &&
    Date.le startD t.date && Date.le t.date endD))

/-- One result row of getBudgetStatus for a budget joined to its category. -/
def budgetStatusOf (s : Store) (b : Budget) (cname : String) : BudgetStatus :=
  let eff := effectiveEnd b
  let spent := spentAmount s b.category_id b.start_date eff
  { id := b.id
    category_id := b.category_id
    category_name := cname
    budget_amount := b.amount
    spent_amount := spent
    remaining_amount := (b.amount : Int) - (spent : Int)
    percentage_used := if 0 < b.amount then roundPct spent b.amount else 0
    period := b.period
    start_date := b.start_date
    end_date := eff
    is_over_budget := decide (b.amount < spent) }

/-- getBudgetStatus from src/unnamed/part_002: budgets inner-joined to
categories on `category_id = categories.id` (a budget without a matching
category yields no row), one status row per joined budget. -/
def getBudgetStatus (s : Store) : List BudgetStatus :=
  s.budgets.filterMap (fun b =>
    (s.categories.find? (fun c => c.id == b.category_id)).map
      (fun c => budgetStatusOf s b c.name))

/-! ## Category handlers -/

/-- getCategories from src/server/src/handlers/get_categories.ts: select all. -/
def getCategories (s : Store) : List Category := s.categories

/-- deleteCategory from src/server/src/handlers/create_category.ts: `false`
when the id is absent; otherwise null out the category reference on
transactions, delete the budgets of the category, delete the category. -/
def deleteCategory (id : Nat) (s : Store) : Bool × Store :=
  if (s.categories.find? (fun c => c.id == id)).isNone then (false, s)
  else
    let s1 := { s with transactions := s.transactions.map (fun (t : Transaction) =>
      if t.category_id == some id then { t with category_id := none } else t) }
    let s2 := { s1 with budgets := s1.budgets.filter (fun b => !(b.category_id == id)) }
    let s3 := { s2 with categories := s2.categories.filter (fun c => !(c.id == id)) }
    (true, s3)

/-! ## createTransaction (src/server/src/handlers/create_transaction.ts) and
createBudget (src/unnamed/part_002)

Each handler is a function from the input, the current instant and the
store to the thrown-or-returned value together with the store as the
handler leaves it: a throw before an insert carries the store unchanged. -/

/-- `CreateTransactionInput` from schema.ts (zod guarantees a positive amount). -/
structure CreateTransactionInput where
  amount : Nat
  description : String
  type : TxType
  category_id : Option Nat
  date : Date
deriving DecidableEq, Repr

/-- createTransaction: when `category_id` is non-null the category must
exist, checked before the insert; the insert appends a fresh row. -/
def createTransaction (input : CreateTransactionInput) (now : Nat) (s : Store) :
    Except String Transaction × Store :=
  let doInsert : Except String Transaction × Store :=
    let t : Transaction :=
      { id := freshId (s.transactions.map (·.id))
        amount := input.amount
        description := input.description
        type := input.type
        category_id := input.category_id
        date := input.date
        created_at := now
        updated_at := now }
    (Except.ok t, { s with transactions := s.transactions ++ [t] })
  match input.category_id with
  | some cid =>
      if (s.categories.find? (fun c => c.id == cid)).isNone then
        (Except.error ("Category with id " ++ toString cid ++ " does not exist"), s)
      else doInsert
  | none => doInsert

/-- `CreateBudgetInput` from schema.ts (zod guarantees a positive amount). -/
structure CreateBudgetInput where
  category_id : Nat
  amount : Nat
  period : Period
  start_date : Date
  end_date : Option Date
deriving DecidableEq, Repr

/-- createBudget from src/unnamed/part_002: the category must exist,
checked before the insert. -/
def createBudget (input : CreateBudgetInput) (now : Nat) (s : Store) :
    Except String Budget × Store :=
  if (s.categories.find? (fun c => c.id == input.category_id)).isNone then
    (Except.error ("Category with id " ++ toString input.category_id ++ " does not exist"), s)
  else
    let b : Budget :=
      { id := freshId (s.budgets.map (·.id))
        category_id := input.category_id
        amount := input.amount
        period := input.period
        start_date := input.start_date
        end_date := input.end_date
        created_at := now
        updated_at := now }
    (Except.ok b, { s with budgets := s.budgets ++ [b] })

/-! ## updateTransaction and updateBudget
(src/server/src/handlers/update_transaction.ts, update_budget.ts) -/

/-- `UpdateTransactionInput` from schema.ts: every field beyond `id`
optional; `category_id` is additionally nullable, hence doubly optional. -/
structure UpdateTransactionInput where
  id : Nat
  amount : Option Nat
  description : Option String
  type : Option TxType
  category_id : Option (Option Nat)
  date : Option Date
deriving DecidableEq, Repr

/-- The update object updateTransaction builds: `updated_at` always set to
now, each provided field overwriting, each omitted field untouched. -/
def applyTransactionUpdate (input : UpdateTransactionInput) (now : Nat)
    (t : Transaction) : Transaction :=
  { t with
    updated_at := now
    amount := input.amount.getD t.amount
    description := input.description.getD t.description
    type := input.type.getD t.type
    category_id := input.category_id.getD t.category_id
    date := input.date.getD t.date }

/-- updateTransaction: existence check, then (for a provided non-null
`category_id`) the referential check, both before the single UPDATE. -/
def updateTransaction (input : UpdateTransactionInput) (now : Nat) (s : Store) :
    Except String Transaction × Store :=
  match s.transactions.find? (fun t => t.id == input.id) with
  | none => (Except.error ("Transaction with id " ++ toString input.id ++ " not found"), s)
  | some t0 =>
    let doUpdate : Except String Transaction × Store :=
      (Except.ok (applyTransactionUpdate input now t0),
       { s with transactions := s.transactions.map (fun t =>
           if t.id == input.id then applyTransactionUpdate input now t else t) })
    match input.category_id with
    | some (some cid) =>
        if (s.categories.find? (fun c => c.id == cid)).isNone then
          (Except.error ("Category with id " ++ toString cid ++ " not found"), s)
        else doUpdate
    | _ => doUpdate

/-- `UpdateBudgetInput` from schema.ts: every field beyond `id` optional;
`end_date` is additionally nullable. -/
structure UpdateBudgetInput where
  id : Nat
  category_id : Option Nat
  amount : Option Nat
  period : Option Period
  start_date : Option Date
  end_date : Option (Option Date)
deriving DecidableEq, Repr

/-- The update object updateBudget builds. -/
def applyBudgetUpdate (input : UpdateBudgetInput) (now : Nat) (b : Budget) : Budget :=
  { b with
    updated_at := now
    category_id := input.category_id.getD b.category_id
    amount := input.amount.getD b.amount
    period := input.period.getD b.period
    start_date := input.start_date.getD b.start_date
    end_date := input.end_date.getD b.end_date }

/-- updateBudget: existence check, then (for a provided `category_id`) the
referential check, both before the single UPDATE. -/
def updateBudget (input : UpdateBudgetInput) (now : Nat) (s : Store) :
    Except String Budget × Store :=
  match s.budgets.find? (fun b => b.id == input.id) with
  | none => (Except.error ("Budget with id " ++ toString input.id ++ " not found"), s)
  | some b0 =>
    let doUpdate : Except String Budget × Store :=
      (Except.ok (applyBudgetUpdate input now b0),
       { s with budgets := s.budgets.map (fun b =>
           if b.id == input.id then applyBudgetUpdate input now b else b) })
    match input.category_id with
    | some cid =>
        if (s.categories.find? (fun c => c.id == cid)).isNone then
          (Except.error ("Category with id " ++ toString cid ++ " not found"), s)
        else doUpdate
    | none => doUpdate

/-! ## Spec-side characterizations and concrete instances -/

/-- Is `input.category_id`, when provided and non-null, an existing
category?  (The referential check updateTransaction performs.) -/
def txCategoryOk (input : UpdateTransactionInput) (s : Store) : Bool :=
  match input.category_id with
  | some (some cid) => (s.categories.find? (fun c => c.id == cid)).isSome
  | _ => true

/-- Is `input.category_id`, when provided, an existing category?
(The referential check updateBudget performs.) -/
def budCategoryOk (input : UpdateBudgetInput) (s : Store) : Bool :=
  match input.category_id with
  | some cid => (s.categories.find? (fun c => c.id == cid)).isSome
  | none => true

/-- Validity of a calendar date: month in 1..12 and day within the month. -/
def Date.valid (a : Date) : Prop :=
  1 ≤ a.m ∧ a.m ≤ 12 ∧ 1 ≤ a.d ∧ a.d ≤ daysInMonth a.y a.m

instance (a : Date) : Decidable a.valid := by unfold Date.valid; infer_instance

/-- Year and month one calendar month after month `m` of year `y`,
December rolling into January. -/
def nextYM (y m : Nat) : Nat × Nat := if m = 12 then (y + 1, 1) else (y, m + 1)

/-- Placement of a possibly too-large day number `d` in month `(y, m)` by
the JavaScript overflow policy, stated explicitly: keep the day when it
fits, otherwise carry the excess into the following month.  (The clamping
policy the spec suggests would instead cap the day at `daysInMonth y m`.) -/
def carryDate (y m d : Nat) : Date :=
  if d ≤ daysInMonth y m then ⟨y, m, d⟩
  else ⟨(nextYM y m).1, (nextYM y m).2, d - daysInMonth y m⟩

/-- The end-date derivation the handler actually performs, written as an
explicit one-step overflow formula: an explicit `end_date` is echoed;
weekly adds 7 to the day and carries; monthly advances the month keeping
the day number and carries the excess (Jan 31 + 1 month lands in March);
yearly advances the year keeping month and day and carries (Feb 29 + 1
year lands on Mar 1). -/
def specEffectiveEnd (b : Budget) : Date :=
  match b.end_date with
  | some e => e
  | none =>
    match b.period with
    | Period.weekly => carryDate b.start_date.y b.start_date.m (b.start_date.d + 7)
    | Period.monthly =>
        carryDate (nextYM b.start_date.y b.start_date.m).1
          (nextYM b.start_date.y b.start_date.m).2 b.start_date.d
    | Period.yearly => carryDate (b.start_date.y + 1) b.start_date.m b.start_date.d

/-- A category, transactions and a budget realizing the spec's
budget-status scenario (budget 50000, monthly, Jan 2024, expenses 15000
and 10000 inside the window, an income row and an out-of-window expense). -/
def catFood : Category := ⟨1, "Food", "#FF0000", none, 0⟩

def txn1 : Transaction := ⟨1, 15000, "groceries", TxType.expense, some 1, ⟨2024, 1, 10⟩, 0, 0⟩

def txn2 : Transaction := ⟨2, 10000, "dining", TxType.expense, some 1, ⟨2024, 1, 20⟩, 0, 0⟩

def txn3 : Transaction := ⟨3, 9999, "salary", TxType.income, some 1, ⟨2024, 1, 20⟩, 0, 0⟩

def txn4 : Transaction := ⟨4, 7777, "later", TxType.expense, some 1, ⟨2024, 2, 20⟩, 0, 0⟩

def bud1 : Budget := ⟨1, 1, 50000, Period.monthly, ⟨2024, 1, 1⟩, some ⟨2024, 1, 31⟩, 0, 0⟩

def storeB : Store := ⟨[catFood], [txn1, txn2, txn3, txn4], [bud1]⟩

/-- The status row getBudgetStatus produces for `bud1` in `storeB`. -/
def st1 : BudgetStatus := budgetStatusOf storeB bud1 "Food"

/-- A monthly budget starting Jan 31, 2024 with no end date. -/
def budJan : Budget := ⟨1, 1, 100, Period.monthly, ⟨2024, 1, 31⟩, none, 0, 0⟩

def storeJan : Store := ⟨[catFood], [], [budJan]⟩

def stJan : BudgetStatus := budgetStatusOf storeJan budJan "Food"

/-- Two stores holding the same rows (same tables as multisets) in two
different enumeration orders. -/
def catA : Category := ⟨1, "A", "#00FF00", none, 0⟩

def catB2 : Category := ⟨2, "B", "#0000FF", none, 0⟩

def txP1 : Transaction := ⟨1, 2000, "pa", TxType.expense, some 1, ⟨2024, 1, 5⟩, 0, 0⟩

def txP2 : Transaction := ⟨2, 1500, "pb", TxType.expense, some 2, ⟨2024, 1, 6⟩, 0, 0⟩

def storeP1 : Store := ⟨[catA, catB2], [txP1, txP2], []⟩

def storeP2 : Store := ⟨[catA, catB2], [txP2, txP1], []⟩

/-- A budget referencing category 99, which does not exist. -/
def budOrphan : Budget := ⟨2, 99, 1000, Period.weekly, ⟨2024, 1, 1⟩, none, 0, 0⟩

def storeOrphan : Store := ⟨[catFood], [], [bud1, budOrphan]⟩

def stOrph : BudgetStatus := budgetStatusOf storeOrphan bud1 "Food"

/-- Inputs exercising the handlers at concrete points. -/
def ctBad : CreateTransactionInput := ⟨500, "bad", TxType.expense, some 99, ⟨2024, 1, 1⟩⟩

def cbBad : CreateBudgetInput := ⟨99, 1000, Period.monthly, ⟨2024, 1, 1⟩, none⟩

def tiW : UpdateTransactionInput := ⟨1, some 123, none, none, none, none⟩

def biW : UpdateBudgetInput := ⟨1, none, some 60000, none, none, none⟩

def tiMiss : UpdateTransactionInput := ⟨99, none, none, none, none, none⟩

def biMiss : UpdateBudgetInput := ⟨99, none, none, none, none, none⟩

/-! ## Helper lemmas -/

theorem mem_firstKeys {seen l : List (Option Nat)} {k : Option Nat} :
    k ∈ firstKeys seen l ↔ k ∈ l ∧ k ∉ seen := by
  induction l generalizing seen with
  | nil => simp [firstKeys]
  | cons a rest ih =>
    by_cases ha : a ∈ seen
    · rw [firstKeys, if_pos ha, ih]
      constructor
      · rintro ⟨hk, hs⟩
        exact ⟨List.mem_cons_of_mem a hk, hs⟩
      · rintro ⟨hk, hs⟩
        rcases List.mem_cons.mp hk with hk | hk
        · subst hk; exact absurd ha hs
        · exact ⟨hk, hs⟩
    · rw [firstKeys, if_neg ha]
      constructor
      · intro hk
        rcases List.mem_cons.mp hk with hk | hk
        · subst hk; exact ⟨List.mem_cons_self k rest, ha⟩
        · obtain ⟨h1, h2⟩ := ih.mp hk
          refine ⟨List.mem_cons_of_mem a h1, fun hs => h2 (List.mem_cons_of_mem a hs)⟩
      · rintro ⟨hk, hs⟩
        rcases List.mem_cons.mp hk with hk | hk
        · subst hk; exact List.mem_cons_self k _
        · by_cases hka : k = a
          · subst hka; exact List.mem_cons_self k _
          · refine List.mem_cons_of_mem a (ih.mpr ⟨hk, ?_⟩)
            intro hmem
            rcases List.mem_cons.mp hmem with h | h
            · exact hka h
            · exact hs h

theorem nodup_firstKeys (seen l : List (Option Nat)) : (firstKeys seen l).Nodup := by
  induction l generalizing seen with
  | nil => simp [firstKeys]
  | cons a rest ih =>
    by_cases ha : a ∈ seen
    · rw [firstKeys, if_pos ha]; exact ih seen
    · rw [firstKeys, if_neg ha]
      refine List.nodup_cons.mpr ⟨?_, ih (a :: seen)⟩
      intro hmem
      exact (mem_firstKeys.mp hmem).2 (List.mem_cons_self a seen)

theorem breakdown_keys (r : DateRange) (s : Store) :
    (expenseBreakdown r s).map (fun g => g.category_id)
      = firstKeys [] ((s.transactions.filter
          (fun t => t.type == TxType.expense && inRange r t)).map (fun t => t.category_id)) := by
  unfold expenseBreakdown
  rw [List.map_map]
  exact List.map_id _

theorem daysInMonth_ge (y m : Nat) : 28 ≤ daysInMonth y m := by
  unfold daysInMonth
  split_ifs <;> omega

theorem daysInMonth_le (y m : Nat) : daysInMonth y m ≤ 31 := by
  unfold daysInMonth
  split_ifs <;> omega

theorem normDays_succ (fuel y m d : Nat) :
    normDays (fuel+1) y m d =
      if d ≤ daysInMonth y m then ⟨y, m, d⟩
      else if m = 12 then normDays fuel (y+1) 1 (d - daysInMonth y m)
      else normDays fuel y (m+1) (d - daysInMonth y m) := rfl

theorem normDays_carry1 (fuel y m d : Nat) (h2 : d - daysInMonth y m ≤ 28) :
    normDays (fuel+2) y m d = carryDate y m d := by
  rw [show fuel + 2 = (fuel + 1) + 1 from rfl, normDays_succ]
  unfold carryDate nextYM
  by_cases h1 : d ≤ daysInMonth y m
  · rw [if_pos h1, if_pos h1]
  · rw [if_neg h1, if_neg h1]
    by_cases hm : m = 12
    · rw [if_pos hm, if_pos hm]
      subst hm
      rw [normDays_succ, if_pos (le_trans h2 (daysInMonth_ge (y+1) 1))]
    · rw [if_neg hm, if_neg hm]
      rw [normDays_succ, if_pos (le_trans h2 (daysInMonth_ge y (m+1)))]

theorem addDays7_spec (a : Date) (hdim : a.d ≤ daysInMonth a.y a.m) :
    addDays7 a = carryDate a.y a.m (a.d + 7) := by
  rw [addDays7, show (4 : Nat) = 2 + 2 from rfl]
  exact normDays_carry1 2 a.y a.m (a.d + 7) (by omega)

theorem addMonthJS_spec (a : Date) (hd : a.d ≤ 31) :
    addMonthJS a = carryDate (nextYM a.y a.m).1 (nextYM a.y a.m).2 a.d := by
  rw [addMonthJS]
  by_cases hm : a.m = 12
  · rw [if_pos hm]
    have h28 := daysInMonth_ge (a.y + 1) 1
    rw [show (4 : Nat) = 2 + 2 from rfl, normDays_carry1 2 (a.y + 1) 1 a.d (by omega)]
    unfold nextYM
    rw [if_pos hm]
  · rw [if_neg hm]
    have h28 := daysInMonth_ge a.y (a.m + 1)
    rw [show (4 : Nat) = 2 + 2 from rfl, normDays_carry1 2 a.y (a.m + 1) a.d (by omega)]
    unfold nextYM
    rw [if_neg hm]

theorem addYearJS_spec (a : Date) (hd : a.d ≤ 31) :
    addYearJS a = carryDate (a.y + 1) a.m a.d := by
  have h28 := daysInMonth_ge (a.y + 1) a.m
  rw [addYearJS, show (4 : Nat) = 2 + 2 from rfl]
  exact normDays_carry1 2 (a.y + 1) a.m a.d (by omega)

/-! ## Theorems for the claims -/

/-- Claim C4: for every filter, getTransactions returns exactly the stored
transactions satisfying every supplied predicate conjointly (AND
semantics), with both date bounds inclusive, and an absent or empty filter
returns the full unfiltered transaction list. -/
theorem getTransactions_filter_and (f : TransactionFilter) (s : Store) (t : Transaction) :
    (t ∈ getTransactions (some f) s ↔
      t ∈ s.transactions ∧
      (∀ ty, f.type = some ty → t.type = ty) ∧
      (∀ cid, f.category_id = some cid → t.category_id = some cid) ∧
      (∀ sd, f.start_date = some sd → sd.key ≤ t.date.key) ∧
      (∀ ed, f.end_date = some ed → t.date.key ≤ ed.key)) ∧
    getTransactions none s = s.transactions ∧
    getTransactions (some ⟨none, none, none, none⟩) s = s.transactions := by
  obtain ⟨ft, fc, fs, fe⟩ := f
  refine ⟨?_, rfl, ?_⟩
  · cases ft <;> cases fc <;> cases fs <;> cases fe <;>
      simp [getTransactions, List.mem_filter, matchesCond, Date.le, and_assoc]
  · simp [getTransactions, matchesCond, List.filter_eq_self]

/-- Claim C9 counterexample: the two stores hold identical data (the same
transaction rows as a multiset, identical categories and budgets) yet
getFinancialReport returns their expense_by_category lists in different
orders, so the output is not determined by the data alone (the query has
no ORDER BY; it follows the row enumeration). -/
theorem financial_report_order_cex :
    storeP1.transactions.Perm storeP2.transactions ∧
    storeP1.categories = storeP2.categories ∧
    storeP1.budgets = storeP2.budgets ∧
    (getFinancialReport ⟨none, none⟩ storeP1).expense_by_category ≠
      (getFinancialReport ⟨none, none⟩ storeP2).expense_by_category := by
  refine ⟨List.Perm.swap txP2 txP1 [], rfl, rfl, by decide⟩

/-- Claim C9 (amended): for a fixed store snapshot (rows in a fixed
enumeration order) the expense_by_category output is deterministic: its
entries are the distinct category ids of the matching expense rows, each
exactly once, in order of first occurrence in the enumeration.  No
enumeration-independent order (such as category_id ascending) is imposed. -/
theorem financial_report_breakdown_order (r : DateRange) (s : Store) :
    (getFinancialReport r s).expense_by_category.map (fun g => g.category_id)
      = firstKeys [] ((s.transactions.filter
          (fun t => t.type == TxType.expense && inRange r t)).map (fun t => t.category_id)) ∧
    ((getFinancialReport r s).expense_by_category.map (fun g => g.category_id)).Nodup := by
  constructor
  · exact breakdown_keys r s
  · show ((expenseBreakdown r s).map (fun g => g.category_id)).Nodup
    rw [breakdown_keys r s]
    exact nodup_firstKeys _ _

/-- Claim C2 counterexample: the monthly budget of `storeJan` starts
2024-01-31 (a leap year) and has no end date; getBudgetStatus returns the
effective end date 2024-03-02 — a date in March — where the claim requires
clamping to 2024-02-29, the last valid day of the target month. -/
theorem monthly_rollover_cex :
    (getBudgetStatus storeJan).map (fun st => st.end_date) = [⟨2024, 3, 2⟩] ∧
    (⟨2024, 3, 2⟩ : Date) ≠ ⟨2024, 2, 29⟩ ∧
    (Date.m ⟨2024, 3, 2⟩) ≠ 2 := by decide

/-- Claim C2 (amended): every getBudgetStatus entry comes from a budget
whose explicit end_date, when set, is echoed as the returned end_date;
when it is null the returned end_date applies the period to start_date
with the JavaScript overflow policy made explicit by `specEffectiveEnd`:
weekly adds 7 days carrying month overflow, monthly advances the month
keeping the day number and carries the excess into the following month
(no clamping: Jan 31 + 1 month is Mar 2/3), yearly advances the year
keeping month and day and carries (Feb 29 + 1 year is Mar 1). -/
theorem getBudgetStatus_effective_end (s : Store) (st : BudgetStatus)
    (h : st ∈ getBudgetStatus s) :
    ∃ b, b ∈ s.budgets ∧ b.id = st.id ∧ b.category_id = st.category_id ∧
      b.start_date = st.start_date ∧ b.period = st.period ∧
      (∀ e, b.end_date = some e → st.end_date = e) ∧
      (b.end_date = none → b.start_date.valid → st.end_date = specEffectiveEnd b) := by
  obtain ⟨b, hb, hmap⟩ := List.mem_filterMap.mp h
  obtain ⟨c, hfc, hval⟩ := Option.map_eq_some'.mp hmap
  subst hval
  refine ⟨b, hb, rfl, rfl, rfl, rfl, ?_, ?_⟩
  · intro e he
    show effectiveEnd b = e
    unfold effectiveEnd
    rw [he]
  · intro he hv
    obtain ⟨hm1, hm2, hd1, hd2⟩ := hv
    show effectiveEnd b = specEffectiveEnd b
    unfold effectiveEnd specEffectiveEnd
    rw [he]
    have hd31 : b.start_date.d ≤ 31 := le_trans hd2 (daysInMonth_le _ _)
    cases b.period with
    | weekly => exact addDays7_spec b.start_date hd2
    | monthly => exact addMonthJS_spec b.start_date hd31
    | yearly => exact addYearJS_spec b.start_date hd31

/-- Claim C1: in every getBudgetStatus entry, spent_amount is the sum of
amounts of expense transactions of the budget's category dated inside the
inclusive window from start_date to the effective end_date (income rows
and out-of-window rows never contribute); remaining_amount is the budget
amount minus spent_amount (possibly negative); percentage_used is the
half-up rounding of spent/amount times 100 when the amount is positive and
0 otherwise; is_over_budget holds exactly when spent_amount strictly
exceeds the budget amount. -/
theorem getBudgetStatus_fields (s : Store) (st : BudgetStatus)
    (h : st ∈ getBudgetStatus s) :
    st.spent_amount = sumAmounts (s.transactions.filter (fun t =>
      t.type == TxType.expense && t.category_id == some st.category_id &&
      Date.le st.start_date t.date && Date.le t.date st.end_date)) ∧
    st.remaining_amount = (st.budget_amount : Int) - (st.spent_amount : Int) ∧
    st.percentage_used = (if 0 < st.budget_amount
      then (200 * st.spent_amount + st.budget_amount) / (2 * st.budget_amount) else 0) ∧
    (st.is_over_budget = true ↔ st.budget_amount < st.spent_amount) := by
  obtain ⟨b, hb, hmap⟩ := List.mem_filterMap.mp h
  obtain ⟨c, hfc, hval⟩ := Option.map_eq_some'.mp hmap
  subst hval
  refine ⟨?_, rfl, rfl, by simp [budgetStatusOf]⟩
  simp only [budgetStatusOf]
  unfold spentAmount
  refine congrArg sumAmounts (List.filter_congr ?_)
  intro t ht
  cases h1 : (t.category_id == some b.category_id) <;>
    cases h2 : (t.type == TxType.expense) <;> rfl

/-- Claim C3: getFinancialReport computes total_income and total_expenses
as the sums of the amounts of income resp. expense transactions dated
inclusively within the optional range (absent bounds unbounded),
net_income as their difference, a breakdown grouped by category_id in
which null-category transactions form their own group with a null
category_name (every matching expense row is covered by exactly one
group), and a period field echoing the input range unchanged; with no
matching transactions all totals are 0 and the breakdown is empty (the
embedding is a total function, so no error is raised). -/
theorem getFinancialReport_correct (r : DateRange) (s : Store) :
    (getFinancialReport r s).total_income
      = sumAmounts (s.transactions.filter (fun t => t.type == TxType.income && inRange r t)) ∧
    (getFinancialReport r s).total_expenses
      = sumAmounts (s.transactions.filter (fun t => t.type == TxType.expense && inRange r t)) ∧
    (getFinancialReport r s).net_income
      = ((getFinancialReport r s).total_income : Int)
        - ((getFinancialReport r s).total_expenses : Int) ∧
    (∀ g ∈ (getFinancialReport r s).expense_by_category,
      g.total_amount = sumAmounts (s.transactions.filter (fun t =>
        t.type == TxType.expense && inRange r t && t.category_id == g.category_id)) ∧
      (g.category_id = none → g.category_name = none)) ∧
    (∀ t ∈ s.transactions, t.type = TxType.expense → inRange r t = true →
      ∃ g ∈ (getFinancialReport r s).expense_by_category, g.category_id = t.category_id) ∧
    (getFinancialReport r s).period = r ∧
    (s.transactions.filter (fun t => inRange r t) = [] →
      (getFinancialReport r s).total_income = 0 ∧
      (getFinancialReport r s).total_expenses = 0 ∧
      (getFinancialReport r s).net_income = 0 ∧
      (getFinancialReport r s).expense_by_category = []) := by
  refine ⟨rfl, rfl, rfl, ?_, ?_, rfl, ?_⟩
  · intro g hg
    have hg2 : g ∈ expenseBreakdown r s := hg
    unfold expenseBreakdown at hg2
    obtain ⟨k, hk, hgk⟩ := List.mem_map.mp hg2
    subst hgk
    refine ⟨?_, ?_⟩
    · show sumAmounts ((s.transactions.filter
        (fun t => t.type == TxType.expense && inRange r t)).filter
          (fun t => t.category_id == k)) = _
      rw [List.filter_filter]
      refine congrArg sumAmounts (List.filter_congr ?_)
      intro t ht
      cases h1 : (t.category_id == k) <;>
        cases h2 : (t.type == TxType.expense) <;>
          cases h3 : inRange r t <;> rfl
    · intro hk0
      show lookupName s.categories k = none
      have : k = none := hk0
      rw [this]
      rfl
  · intro t ht hty hin
    have htm : t ∈ s.transactions.filter (fun t => t.type == TxType.expense && inRange r t) := by
      refine List.mem_filter.mpr ⟨ht, ?_⟩
      rw [hty, hin]
      rfl
    have hkmem : t.category_id ∈ firstKeys []
        ((s.transactions.filter (fun t => t.type == TxType.expense && inRange r t)).map
          (fun t => t.category_id)) := by
      refine mem_firstKeys.mpr ⟨List.mem_map_of_mem _ htm, List.not_mem_nil _⟩
    exact ⟨_, List.mem_map_of_mem _ hkmem, rfl⟩
  · intro hemp
    have hfil : ∀ p : Transaction → Bool,
        s.transactions.filter (fun t => p t && inRange r t) = [] := by
      intro p
      rw [List.filter_eq_nil_iff]
      intro a ha hcond
      exact absurd ((Bool.and_eq_true _ _).mp hcond).2 (List.filter_eq_nil_iff.mp hemp a ha)
    have hI : (getFinancialReport r s).total_income = 0 := by
      show sumAmounts (s.transactions.filter
        (fun t => t.type == TxType.income && inRange r t)) = 0
      rw [hfil (fun t => t.type == TxType.income)]
      rfl
    have hE : (getFinancialReport r s).total_expenses = 0 := by
      show sumAmounts (s.transactions.filter
        (fun t => t.type == TxType.expense && inRange r t)) = 0
      rw [hfil (fun t => t.type == TxType.expense)]
      rfl
    refine ⟨hI, hE, ?_, ?_⟩
    · show ((getFinancialReport r s).total_income : Int)
        - ((getFinancialReport r s).total_expenses : Int) = 0
      rw [hI, hE]
      rfl
    · show expenseBreakdown r s = []
      unfold expenseBreakdown
      rw [hfil (fun t => t.type == TxType.expense)]
      rfl

/-- Claim C5: deleteCategory returns false (not an error) when no category
with the id exists; otherwise it nulls the category reference on every
transaction referencing it (the transactions themselves are preserved by
the row-wise map), deletes every budget referencing it, deletes the
category itself — so it is absent from subsequent getCategories results —
and returns true. -/
theorem deleteCategory_spec (id : Nat) (s : Store) :
    (s.categories.find? (fun c => c.id == id) = none → deleteCategory id s = (false, s)) ∧
    (∀ c0, s.categories.find? (fun c => c.id == id) = some c0 →
      (deleteCategory id s).1 = true ∧
      (deleteCategory id s).2.transactions = s.transactions.map (fun (t : Transaction) =>
        if t.category_id == some id then { t with category_id := none } else t) ∧
      (deleteCategory id s).2.budgets = s.budgets.filter (fun b => !(b.category_id == id)) ∧
      (deleteCategory id s).2.categories = s.categories.filter (fun c => !(c.id == id)) ∧
      ∀ c ∈ getCategories (deleteCategory id s).2, c.id ≠ id) := by
  constructor
  · intro hf
    rw [deleteCategory, if_pos (by rw [hf]; rfl)]
  · intro c0 hf
    rw [deleteCategory, if_neg (by rw [hf]; exact Bool.noConfusion)]
    refine ⟨rfl, rfl, rfl, rfl, ?_⟩
    intro c hc
    have := (List.mem_filter.mp hc).2
    intro heq
    rw [heq] at this
    simp at this

/-- Claim C6: createTransaction with a non-null category_id referencing no
existing category fails with the referential "does not exist" error and
leaves the store unchanged (no transaction row inserted); createBudget
checks the referenced category before its insert and likewise fails with
the referential error leaving the store unchanged. -/
theorem create_referential_spec (s : Store) (now : Nat)
    (ti : CreateTransactionInput) (bi : CreateBudgetInput) :
    (∀ cid, ti.category_id = some cid →
      s.categories.find? (fun c => c.id == cid) = none →
      createTransaction ti now s
        = (Except.error ("Category with id " ++ toString cid ++ " does not exist"), s)) ∧
    (s.categories.find? (fun c => c.id == bi.category_id) = none →
      createBudget bi now s
        = (Except.error ("Category with id " ++ toString bi.category_id
            ++ " does not exist"), s)) := by
  constructor
  · intro cid hcid hf
    simp [createTransaction, hcid, hf]
  · intro hf
    rw [createBudget, if_pos (by rw [hf]; rfl)]

/-- Claim C7: a budget whose category_id references no existing category
is silently excluded from the getBudgetStatus result set (the inner join
against categories drops it) and never makes getBudgetStatus fail — the
embedding is a total function.  Budget ids are a primary key, hence the
Nodup hypothesis. -/
theorem orphan_budget_excluded (s : Store) (b : Budget)
    (hb : b ∈ s.budgets)
    (hc : s.categories.find? (fun c => c.id == b.category_id) = none)
    (hnd : (s.budgets.map (fun b2 => b2.id)).Nodup) :
    ∀ st ∈ getBudgetStatus s, st.id ≠ b.id := by
  intro st hst heq
  obtain ⟨b2, hb2, hmap⟩ := List.mem_filterMap.mp hst
  obtain ⟨c, hfc, hval⟩ := Option.map_eq_some'.mp hmap
  have hid : b2.id = b.id := by rw [← hval] at heq; exact heq
  have hbb : b2 = b := List.inj_on_of_nodup_map hnd hb2 hb hid
  rw [hbb, hc] at hfc
  exact Option.noConfusion hfc

/-- Claim C8: updateTransaction and updateBudget fail with the NotFound
error when no row has the given id; on a successful partial update the
stored row is replaced by the update object, which keeps id and created_at,
refreshes updated_at to now, overwrites exactly the supplied fields and
retains the prior value of every omitted field; the other tables are
untouched. -/
theorem update_partial_spec (ti : UpdateTransactionInput) (bi : UpdateBudgetInput)
    (now : Nat) (s : Store) :
    (s.transactions.find? (fun t => t.id == ti.id) = none →
      updateTransaction ti now s
        = (Except.error ("Transaction with id " ++ toString ti.id ++ " not found"), s)) ∧
    (∀ t0, s.transactions.find? (fun t => t.id == ti.id) = some t0 →
      txCategoryOk ti s = true →
      (updateTransaction ti now s).1 = Except.ok (applyTransactionUpdate ti now t0) ∧
      (updateTransaction ti now s).2.transactions = s.transactions.map (fun t =>
        if t.id == ti.id then applyTransactionUpdate ti now t else t) ∧
      (updateTransaction ti now s).2.categories = s.categories ∧
      (updateTransaction ti now s).2.budgets = s.budgets) ∧
    (∀ t, (applyTransactionUpdate ti now t).id = t.id ∧
      (applyTransactionUpdate ti now t).created_at = t.created_at ∧
      (applyTransactionUpdate ti now t).updated_at = now ∧
      (ti.amount = none → (applyTransactionUpdate ti now t).amount = t.amount) ∧
      (∀ v, ti.amount = some v → (applyTransactionUpdate ti now t).amount = v) ∧
      (ti.description = none → (applyTransactionUpdate ti now t).description = t.description) ∧
      (∀ v, ti.description = some v → (applyTransactionUpdate ti now t).description = v) ∧
      (ti.type = none → (applyTransactionUpdate ti now t).type = t.type) ∧
      (∀ v, ti.type = some v → (applyTransactionUpdate ti now t).type = v) ∧
      (ti.category_id = none → (applyTransactionUpdate ti now t).category_id = t.category_id) ∧
      (∀ v, ti.category_id = some v → (applyTransactionUpdate ti now t).category_id = v) ∧
      (ti.date = none → (applyTransactionUpdate ti now t).date = t.date) ∧
      (∀ v, ti.date = some v → (applyTransactionUpdate ti now t).date = v)) ∧
    (s.budgets.find? (fun b => b.id == bi.id) = none →
      updateBudget bi now s
        = (Except.error ("Budget with id " ++ toString bi.id ++ " not found"), s)) ∧
    (∀ b0, s.budgets.find? (fun b => b.id == bi.id) = some b0 →
      budCategoryOk bi s = true →
      (updateBudget bi now s).1 = Except.ok (applyBudgetUpdate bi now b0) ∧
      (updateBudget bi now s).2.budgets = s.budgets.map (fun b =>
        if b.id == bi.id then applyBudgetUpdate bi now b else b) ∧
      (updateBudget bi now s).2.categories = s.categories ∧
      (updateBudget bi now s).2.transactions = s.transactions) ∧
    (∀ b, (applyBudgetUpdate bi now b).id = b.id ∧
      (applyBudgetUpdate bi now b).created_at = b.created_at ∧
      (applyBudgetUpdate bi now b).updated_at = now ∧
      (bi.category_id = none → (applyBudgetUpdate bi now b).category_id = b.category_id) ∧
      (∀ v, bi.category_id = some v → (applyBudgetUpdate bi now b).category_id = v) ∧
      (bi.amount = none → (applyBudgetUpdate bi now b).amount = b.amount) ∧
      (∀ v, bi.amount = some v → (applyBudgetUpdate bi now b).amount = v) ∧
      (bi.period = none → (applyBudgetUpdate bi now b).period = b.period) ∧
      (∀ v, bi.period = some v → (applyBudgetUpdate bi now b).period = v) ∧
      (bi.start_date = none → (applyBudgetUpdate bi now b).start_date = b.start_date) ∧
      (∀ v, bi.start_date = some v → (applyBudgetUpdate bi now b).start_date = v) ∧
      (bi.end_date = none → (applyBudgetUpdate bi now b).end_date = b.end_date) ∧
      (∀ v, bi.end_date = some v → (applyBudgetUpdate bi now b).end_date = v)) := by
  refine ⟨?_, ?_, ?_, ?_, ?_, ?_⟩
  · intro hf
    rw [updateTransaction, hf]
  · intro t0 hf hcat
    match hcid : ti.category_id with
    | none => simp [updateTransaction, hf, hcid]
    | some none => simp [updateTransaction, hf, hcid]
    | some (some cid) =>
      simp only [txCategoryOk, hcid] at hcat
      obtain ⟨c, hc⟩ := Option.isSome_iff_exists.mp hcat
      simp [updateTransaction, hf, hcid, hc]
  · intro t
    refine ⟨rfl, rfl, rfl, ?_, ?_, ?_, ?_, ?_, ?_, ?_, ?_, ?_, ?_⟩ <;>
      first
        | (intro h; simp [applyTransactionUpdate, h])
        | (intro v h; simp [applyTransactionUpdate, h])
  · intro hf
    rw [updateBudget, hf]
  · intro b0 hf hcat
    match hcid : bi.category_id with
    | none => simp [updateBudget, hf, hcid]
    | some cid =>
      simp only [budCategoryOk, hcid] at hcat
      obtain ⟨c, hc⟩ := Option.isSome_iff_exists.mp hcat
      simp [updateBudget, hf, hcid, hc]
  · intro b
    refine ⟨rfl, rfl, rfl, ?_, ?_, ?_, ?_, ?_, ?_, ?_, ?_, ?_, ?_⟩ <;>
      first
        | (intro h; simp [applyBudgetUpdate, h])
        | (intro v h; simp [applyBudgetUpdate, h])

/-- Claim C10: updateTransaction and updateBudget do all existence and
referential checks before any write: whenever they return an error, the
store they leave behind is exactly the store they were given. -/
theorem update_error_frame (ti : UpdateTransactionInput) (bi : UpdateBudgetInput)
    (now : Nat) (s : Store) :
    (∀ e, (updateTransaction ti now s).1 = Except.error e →
      (updateTransaction ti now s).2 = s) ∧
    (∀ e, (updateBudget bi now s).1 = Except.error e → (updateBudget bi now s).2 = s) := by
  constructor
  · intro e he
    rw [updateTransaction] at he ⊢
    cases hf : s.transactions.find? (fun t => t.id == ti.id) with
    | none => rfl
    | some t0 =>
      match hcid : ti.category_id with
      | none => simp [hf, hcid] at he
      | some none => simp [hf, hcid] at he
      | some (some cid) =>
        cases hq : s.categories.find? (fun c => c.id == cid) with
        | none => simp [hq]
        | some c => simp [hf, hcid, hq] at he
  · intro e he
    rw [updateBudget] at he ⊢
    cases hf : s.budgets.find? (fun b => b.id == bi.id) with
    | none => rfl
    | some b0 =>
      match hcid : bi.category_id with
      | none => simp [hf, hcid] at he
      | some cid =>
        cases hq : s.categories.find? (fun c => c.id == cid) with
        | none => simp [hq]
        | some c => simp [hf, hcid, hq] at he

/-- Witness for C1 at the spec's own scenario: the status row of `bud1`
in `storeB` (spent 25000 of 50000) satisfies the field equations. -/
theorem getBudgetStatus_fields_w :
    st1 ∈ getBudgetStatus storeB ∧
    st1.remaining_amount = (st1.budget_amount : Int) - (st1.spent_amount : Int) :=
  ⟨by decide, (getBudgetStatus_fields storeB st1 (by decide)).2.1⟩

/-- Witness for the amended C2 at the Jan-31 monthly budget of `storeJan`. -/
theorem getBudgetStatus_effective_end_w :
    ∃ b, b ∈ storeJan.budgets ∧ b.id = stJan.id ∧ b.category_id = stJan.category_id ∧
      b.start_date = stJan.start_date ∧ b.period = stJan.period ∧
      (∀ e, b.end_date = some e → stJan.end_date = e) ∧
      (b.end_date = none → b.start_date.valid → stJan.end_date = specEffectiveEnd b) :=
  getBudgetStatus_effective_end storeJan stJan (by decide)

/-- Witness for C7: in `storeOrphan` the orphan budget (id 2, category 99)
yields no status row — the only row is the one of budget 1. -/
theorem orphan_budget_excluded_w :
    stOrph ∈ getBudgetStatus storeOrphan ∧ stOrph.id ≠ budOrphan.id :=
  ⟨by decide,
   orphan_budget_excluded storeOrphan budOrphan (by decide) (by decide) (by decide)
     stOrph (by decide)⟩

end Finance
